import Mathlib

/-!
Verification development for the dual-bot Telegram companion system.

This file gives a shallow embedding, in Lean 4, of the orchestration core of
the repository: the smart model router (`src/src/services/smartRouter.js`),
the dual-agent coordinator's history / timer / idle-burst logic
(`src/src/services/dualBotService.js`, `src/src/services/avatarService.js`)
and the ephemeral segment cache (`src/src/services/segmentService.js`).
JavaScript numbers that only ever hold exactly representable dyadic values
are modelled as `ℚ` (all weights are multiples of 1/2 and every arithmetic
operation performed on them is exact in IEEE doubles, so `ℚ` agrees with the
JavaScript semantics on the reachable values); integer counters and
millisecond timestamps are modelled as `Nat` / `Int`.
-/

namespace SmsBot

/-! ## Smart router: static model tables (`config/models.js`, reproduced in
`docs/DUAL_BOT_ARCHITECTURE.md`, and `src/src/services/smartRouter.js`) -/

/-- The fields of an `AVAILABLE_MODELS` entry that the router reads. -/
structure ModelConfig where
  id : String
  name : String
  icon : String
deriving DecidableEq, Repr

/-- Association-list lookup, modelling a JavaScript object / `Map` keyed
lookup (`obj[key]`, `map.get(key)`): the first binding for the key wins. -/
def findIn (k : String) : List (String × α) → Option α
  | [] => none
  | (a, v) :: rest => if k = a then some v else findIn k rest

/-- `AVAILABLE_MODELS` from `config/models.js`: provider → model-type →
config.  Only the fields the router consumes are carried. -/
def AVAILABLE_MODELS : List (String × List (String × ModelConfig)) :=
  [ ("gemini",
      [ ("flash",    ⟨"gemini-2.5-flash",        "Gemini 2.5 Flash",      "⚡"⟩),
        ("pro",      ⟨"gemini-2.5-pro",          "Gemini 2.5 Pro",        "🧠"⟩),
        ("flashExp", ⟨"gemini-2.0-flash-exp",    "Gemini 2.0 Flash Exp",  "🎨"⟩),
        ("lite",     ⟨"gemini-2.5-flash-lite",   "Gemini 2.5 Flash Lite", "💨"⟩) ]),
    ("grok",
      [ ("mini",  ⟨"grok-3-mini",               "Grok 3 Mini", "😎"⟩),
        ("fast",  ⟨"grok-4-fast-non-reasoning", "Grok 4 Fast", "🚀"⟩),
        ("image", ⟨"grok-2-image-1212",         "Grok Image",  "🖼️"⟩) ]) ]

/-- `EXCLUDED_MODEL_LIST` from `smartRouter.js` lines 15–22. -/
def EXCLUDED_MODEL_LIST : List String :=
  [ "grok-4-0709", "grok-3", "grok-2-vision-1212", "grok-2-1212",
    "grok-code-fast-1", "grok-4-1-fast-reasoning" ]

/-- `MODEL_FALLBACK_CHAIN` from `smartRouter.js` lines 25–37. -/
def MODEL_FALLBACK_CHAIN : List (String × List String) :=
  [ ("gemini-2.5-pro",  ["gemini-2.5-flash", "gemini-2.0-flash", "gemini-2.5-flash-lite"]),
    ("gemini-2.5-flash", ["gemini-2.0-flash", "gemini-2.5-flash-lite", "gemini-2.0-flash-exp"]),
    ("gemini-2.0-flash", ["gemini-2.5-flash-lite", "gemini-2.0-flash-exp"]),
    ("grok-4-fast-non-reasoning", ["grok-3-mini", "gemini-2.5-flash"]),
    ("grok-3-mini", ["grok-4-fast-non-reasoning", "gemini-2.5-flash"]),
    ("default", ["gemini-2.5-flash", "gemini-2.0-flash", "grok-3-mini"]) ]

/-- `SmartRouter.getFallbackModels` (lines 399–401). -/
def getFallbackModels (modelId : String) : List String :=
  match findIn modelId MODEL_FALLBACK_CHAIN with
  | some chain => chain
  | none => (findIn "default" MODEL_FALLBACK_CHAIN).getD []

/-- The record returned by `SmartRouter.getModelInfo` / `selectModel`. -/
structure RoutingDecision where
  model : String
  modelId : String
  provider : String
  reason : String
  icon : String
deriving DecidableEq, Repr

/-- `SmartRouter.getModelInfo` (lines 344–366).  `modelKey.split('.')` is
modelled by `String.splitOn "."`; JavaScript destructuring `[provider, type]`
takes the first element (a split is never empty) and the optional second
element; `AVAILABLE_MODELS[provider]?.[type]` is the nested optional lookup
(an absent `type` indexes as `undefined` and yields `undefined`). -/
def getModelInfo (modelKey : String) (reason : String) : RoutingDecision :=
  let parts := modelKey.splitOn "."
  let provider := parts.headD ""
  let mtype : Option String := parts[1]?
  let modelConfig : Option ModelConfig :=
    (findIn provider AVAILABLE_MODELS).bind fun m =>
      mtype.bind fun t => findIn t m
  match modelConfig with
  | none => ⟨"Gemini 2.5 Flash", "gemini-2.5-flash", "gemini", reason, "⚡"⟩
  | some c => ⟨c.name, c.id, provider, reason, c.icon⟩

/-! ## Smart router: usage counter -/

/-- `this.usageCounter` of `SmartRouter`. -/
structure UsageCounter where
  gemini : Nat
  grok : Nat
  total : Nat
deriving DecidableEq, Repr

/-- The zeroed counter installed by the `SmartRouter` constructor. -/
def initialUsageCounter : UsageCounter := ⟨0, 0, 0⟩

/-- `Math.round` on an exactly-represented rational: the ECMAScript spec
defines `Math.round(x)` as `⌊x + 1/2⌋`. -/
def jsRound (q : ℚ) : ℤ := ⌊q + 1/2⌋

/-- `SmartRouter.updateUsageCounter` (lines 371–387): increment `total` and
the chosen provider's counter, then, once `total >= 100`, replace the counter
with the rounded halves and `total := 50`. -/
def updateUsageCounter (provider : String) (c : UsageCounter) : UsageCounter :=
  let c1 : UsageCounter :=
    { c with
      total := c.total + 1,
      gemini := if provider = "gemini" then c.gemini + 1 else c.gemini,
      grok := if provider = "grok" then c.grok + 1 else c.grok }
  if c1.total ≥ 100 then
    { gemini := (jsRound ((c1.gemini : ℚ) / 2)).toNat,
      grok := (jsRound ((c1.grok : ℚ) / 2)).toNat,
      total := 50 }
  else c1

/-- `SmartRouter.selectByRatio` (lines 325–339).  `Math.random()` is made
explicit as the parameter `r` (a draw uniform in `[0,1)`): the function
returns `grok.mini` exactly when the observed `grok` ratio is below `0.25`
and the draw is below the constant threshold `0.25`. -/
def selectByRatio (c : UsageCounter) (r : ℚ) : String :=
  if c.total = 0 then "gemini.flash"
  else
    let grokRatio : ℚ := (c.grok : ℚ) / (c.total : ℚ)
    if grokRatio < 1/4 then
      if r < 1/4 then "grok.mini" else "gemini.flash"
    else "gemini.flash"

/-- Modelled from the spec: the ratio-balancing rule as §4.2 words it — when
the secondary provider's observed ratio is below the 25% target, the chance
of selecting it equals the *gap* between target and observed ratio (the
draw `r` is compared against `1/4 - grokRatio` instead of the constant
`1/4`). -/
def selectByRatioSpecGap (c : UsageCounter) (r : ℚ) : String :=
  if c.total = 0 then "gemini.flash"
  else
    let grokRatio : ℚ := (c.grok : ℚ) / (c.total : ℚ)
    if grokRatio < 1/4 then
      if r < 1/4 - grokRatio then "grok.mini" else "gemini.flash"
    else "gemini.flash"

/-! ## Classifier: the semantic keyword / pattern registry

The regular expressions in `smartRouter.js` all belong to a tiny fragment —
a possibly `^`-anchored, possibly `$`-anchored sequence of literals, `.*`,
`.{lo,hi}` and one leading alternation of literals — which is embedded
exactly.  JavaScript `RegExp.test` performs an unanchored search and `.`
does not match a newline. -/

/-- One token of a pattern from the fragment used by the source. -/
inductive ReTok where
  | lit (s : String)
  | dotStar
  | dotRange (lo hi : Nat)
  | alts (ss : List String)
deriving DecidableEq, Repr

/-- A pattern: optional `^` anchor, token sequence, optional `$` anchor. -/
structure RePat where
  anchorStart : Bool
  toks : List ReTok
  anchorEnd : Bool
deriving DecidableEq, Repr

/-- Length of the longest newline-free prefix: the furthest `.`/`.*` may
reach, since JavaScript `.` does not match `\n`. -/
def noNlPrefixLen (t : List Char) : Nat :=
  (t.takeWhile (fun ch => ch ≠ '\n')).length

/-- Match a token sequence at the start of `t` (with `$` semantics governed
by `anchorEnd`).  `.*`/`.{lo,hi}` backtrack over every admissible width. -/
def matchToks (anchorEnd : Bool) : List ReTok → List Char → Bool
  | [], t => !anchorEnd || t.isEmpty
  | p :: ps, t =>
      let rest := matchToks anchorEnd ps
      match p with
      | .lit s => s.data.isPrefixOf t && rest (t.drop s.data.length)
      | .dotStar =>
          (List.range (noNlPrefixLen t + 1)).any fun d => rest (t.drop d)
      | .dotRange lo hi =>
          (List.range (hi + 1)).any fun d =>
            decide (lo ≤ d) && decide (d ≤ noNlPrefixLen t) && rest (t.drop d)
      | .alts ss =>
          ss.any fun s => s.data.isPrefixOf t && rest (t.drop s.data.length)

/-- `pattern.test(text)`: an unanchored pattern searches every start
position. -/
def testRe (p : RePat) (text : List Char) : Bool :=
  if p.anchorStart then matchToks p.anchorEnd p.toks text
  else text.tails.any (matchToks p.anchorEnd p.toks)

/-- One entry of `this.semanticPatterns`. -/
structure CategoryConfig where
  keywords : List String
  patterns : List RePat
  weight : ℚ
deriving Repr

/-- `this.semanticPatterns` from the `SmartRouter` constructor
(lines 49–170), categories in registration order. -/
def semanticPatterns : List (String × CategoryConfig) :=
  [ ("reasoning",
     { keywords := ["為什麼", "怎麼理解", "分析", "深入", "言外之意", "潛台詞",
                    "背後含義", "人際關係", "複雜", "矛盾", "兩難", "選擇",
                    "比較", "優缺點", "利弊", "建議", "該怎麼辦"],
       patterns :=
         [ ⟨false, [.lit "如何", .dotStar, .lit "理解"], false⟩,
           ⟨false, [.lit "什麼", .dotStar, .lit "意思"], false⟩,
           ⟨false, [.lit "為什麼", .dotStar, .lit "會"], false⟩,
           ⟨false, [.lit "怎麼", .dotStar, .lit "看待"], false⟩,
           ⟨false, [.dotStar, .lit "和", .dotStar, .lit "哪個好"], false⟩,
           ⟨false, [.dotStar, .lit "還是", .dotStar], false⟩ ],
       weight := 3 }),
    ("health",
     { keywords := ["養生", "中醫", "西醫", "穴位", "經絡", "氣血", "陰陽",
                    "五行", "藥材", "食療", "調理", "症狀", "治療", "預防",
                    "保健", "健康", "疾病", "藥物", "副作用", "禁忌",
                    "胃", "肝", "腎", "心", "肺", "脾", "膽", "腸",
                    "頭痛", "失眠", "便秘", "反酸", "幽門螺桿菌"],
       patterns :=
         [ ⟨false, [.dotStar, .lit "痛", .dotStar, .lit "怎麼辦"], false⟩,
           ⟨false, [.dotStar, .lit "吃什麼好"], false⟩,
           ⟨false, [.dotStar, .lit "能不能吃"], false⟩,
           ⟨false, [.dotStar, .lit "有什麼", .dotStar, .lit "功效"], false⟩ ],
       weight := 5/2 }),
    ("emotional",
     { keywords := ["難過", "開心", "煩", "累", "壓力", "焦慮", "擔心",
                    "害怕", "生氣", "委屈", "孤獨", "想念", "感動",
                    "心情", "情緒", "感覺", "覺得"],
       patterns :=
         [ ⟨false, [.lit "我", .dotStar, .lit "感覺"], false⟩,
           ⟨false, [.lit "我", .dotStar, .lit "覺得"], false⟩,
           ⟨false, [.lit "好", .dotStar, .lit "啊"], false⟩,
           ⟨false, [.lit "真的", .dotStar, .lit "嗎"], false⟩ ],
       weight := 2 }),
    ("humor",
     { keywords := ["搞笑", "笑話", "段子", "吐槽", "噴", "娛樂", "有趣",
                    "好玩", "無聊", "打發時間", "聊聊", "隨便說說"],
       patterns :=
         [ ⟨false, [.lit "來個", .dotStar, .lit "笑話"], false⟩,
           ⟨false, [.lit "說點", .dotStar, .lit "有趣"], false⟩,
           ⟨false, [.lit "逗", .dotStar, .lit "開心"], false⟩ ],
       weight := 2 }),
    ("writing",
     { keywords := ["寫", "作文", "文章", "故事", "小說", "詩", "散文",
                    "擴寫", "續寫", "改寫", "潤色", "修改", "創作",
                    "靈感", "構思", "大綱", "開頭", "結尾"],
       patterns :=
         [ ⟨false, [.lit "幫我寫"], false⟩,
           ⟨false, [.lit "怎麼寫"], false⟩,
           ⟨false, [.lit "寫", .dotStar, .lit "關於"], false⟩ ],
       weight := 5/2 }),
    ("fortune",
     { keywords := ["算命", "運勢", "星座", "塔羅", "八字", "風水",
                    "吉凶", "預測", "未來", "命運", "緣分", "桃花"],
       patterns :=
         [ ⟨false, [.lit "今天", .dotStar, .lit "運勢"], false⟩,
           ⟨false, [.dotStar, .lit "會", .dotStar, .lit "嗎"], false⟩ ],
       weight := 2 }),
    ("lifestyle",
     { keywords := ["怎麼做", "如何", "方法", "技巧", "竅門", "小常識",
                    "生活", "日常", "實用", "冷知識"],
       patterns :=
         [ ⟨false, [.lit "怎麼", .dotStar, .lit "做"], false⟩,
           ⟨false, [.lit "如何", .dotStar, .lit "好"], false⟩,
           ⟨false, [.lit "有什麼", .dotStar, .lit "方法"], false⟩ ],
       weight := 3/2 }),
    ("casual",
     { keywords := ["你好", "嗨", "早", "晚安", "謝謝", "好的", "嗯",
                    "哦", "是嗎", "真的", "然後呢"],
       patterns :=
         [ ⟨true, [.dotRange 1 10], true⟩,
           ⟨true, [.alts ["hi", "hello", "hey"]], false⟩ ],
       weight := 1 }) ]

/-! ## Classifier: `analyzeMessage` -/

/-- The `ClassificationResult` produced by `SmartRouter.analyzeMessage`. -/
structure Analysis where
  category : String
  score : ℚ
  allScores : List (String × ℚ)
  complexity : ℚ
  messageLength : Nat
  hasQuestion : Bool
  hasMultipleQuestions : Bool
deriving DecidableEq, Repr

/-- `text.toLowerCase()` as a character list (ASCII case mapping; the
source's keywords and inputs are CJK or ASCII, on which this agrees with
the JavaScript Unicode mapping). -/
def jsToLower (s : String) : List Char := s.data.map Char.toLower

/-- `haystack.includes(needle)` on character lists: some suffix of the
haystack starts with the needle. -/
def listContains (needle hay : List Char) : Bool :=
  hay.tails.any (needle.isPrefixOf ·)

/-- The per-category score loop of `analyzeMessage` (lines 200–218):
`weight` per contained keyword, then `weight * 1.5` per matching pattern. -/
def categoryScore (text : List Char) (cfg : CategoryConfig) : ℚ :=
  let koScore := cfg.keywords.foldl
    (fun acc kw => if listContains (jsToLower kw) text then acc + cfg.weight else acc) 0
  cfg.patterns.foldl
    (fun acc p => if testRe p text then acc + cfg.weight * (3/2) else acc) koScore

/-- `Object.entries(scores).sort((a,b) => b[1]-a[1])[0]`: a stable
descending sort's head is the first entry attaining the maximal score. -/
def pickTop : List (String × ℚ) → String × ℚ
  | [] => ("", 0)
  | x :: xs => xs.foldl (fun best y => if y.2 > best.2 then y else best) x

/-- A natural number as a rational, by iterated successor (definitionally
equal to `Nat.cast` on every numeral; kept explicit so that concrete
classifier runs evaluate inside the kernel). -/
def natToQ : ℕ → ℚ
  | 0 => 0
  | n + 1 => natToQ n + 1

/-- `natToQ` agrees with the coercion. -/
theorem natToQ_eq_cast (n : ℕ) : natToQ n = (n : ℚ) := by
  induction n with
  | zero => simp [natToQ]
  | succ n ih => simp [natToQ, ih]

/-- `SmartRouter.calculateComplexity` (lines 244–261). -/
def calculateComplexity (message : String) (scores : List (String × ℚ)) : ℚ :=
  let c1 : ℚ := if message.length > 100 then 1 else 0
  let c2 : ℚ := if message.length > 300 then c1 + 1 else c1
  let highCount := (scores.filter (fun s => s.2 > 2)).length
  let c3 : ℚ := c2 + natToQ highCount * (1/2)
  let sc : String → ℚ := fun name => (findIn name scores).getD 0
  let c4 : ℚ := if sc "reasoning" > 3 then c3 + 2 else c3
  let c5 : ℚ := if sc "health" > 3 then c4 + 3/2 else c4
  let c6 : ℚ := if sc "writing" > 3 then c5 + 3/2 else c5
  if c6 ≤ 5 then c6 else 5

/-- `SmartRouter.analyzeMessage` (lines 196–239) on a (non-null) string. -/
def analyzeMessage (message : String) : Analysis :=
  let text := jsToLower message
  let scores := semanticPatterns.map fun c => (c.1, categoryScore text c.2)
  let top := pickTop scores
  { category := top.1,
    score := top.2,
    allScores := scores,
    complexity := calculateComplexity message scores,
    messageLength := message.length,
    hasQuestion := message.data.contains '?' || message.data.contains '？',
    hasMultipleQuestions :=
      decide ((message.data.filter (fun ch => ch = '?' || ch = '？')).length > 1) }

/-- `analyzeMessage` over a nullable argument, as JavaScript callers may
invoke it: a `null`/`undefined` message makes `message.toLowerCase()` throw
a `TypeError` before any score is computed; a string is classified. -/
def analyzeMessageJS (message : Option String) : Except String Analysis :=
  match message with
  | none => .error "TypeError: message is null or undefined"
  | some m => .ok (analyzeMessage m)

/-! ## Router: `selectModel` -/

/-- The rule chain of `SmartRouter.selectModel` (lines 274–319), after the
override check: complexity, then the ordered category rules, then the
ratio-balancing default.  The usage counter and the uniform draw feeding
`selectByRatio` are explicit parameters. -/
def selectModelRules (a : Analysis) (c : UsageCounter) (r : ℚ) : RoutingDecision :=
  if a.complexity ≥ 3 then getModelInfo "gemini.pro" "深度分析"
  else if a.category = "health" ∧ a.score > 2 then getModelInfo "gemini.pro" "養生醫學"
  else if a.category = "writing" ∧ a.score > 2 then getModelInfo "gemini.pro" "寫作輔導"
  else if a.category = "reasoning" ∧ a.score > 2 then getModelInfo "gemini.pro" "複雜推理"
  else if a.category = "emotional" then getModelInfo "grok.fast" "情緒支持"
  else if a.category = "humor" then getModelInfo "grok.mini" "幽默娛樂"
  else if a.category = "fortune" then getModelInfo "gemini.pro" "玄學分析"
  else getModelInfo (selectByRatio c r) "日常對話"

/-- `SmartRouter.selectModel` (lines 266–320).  `context.forceModel` is the
optional override; JavaScript truthiness makes an empty-string override fall
through to the rule chain. -/
def selectModel (a : Analysis) (forceModel : Option String)
    (c : UsageCounter) (r : ℚ) : RoutingDecision :=
  match forceModel with
  | some fm => if fm = "" then selectModelRules a c r else getModelInfo fm "用戶指定"
  | none => selectModelRules a c r

/-! ## Helper lemmas -/

/-- A successful association-list lookup returns one of the stored values. -/
theorem findIn_mem {α : Type} {k : String} :
    ∀ {l : List (String × α)} {v}, findIn k l = some v → v ∈ l.map Prod.snd := by
  intro l
  induction l with
  | nil => intro v h; simp [findIn] at h
  | cons a rest ih =>
      intro v h
      obtain ⟨ka, va⟩ := a
      simp only [findIn] at h
      by_cases hk : k = ka
      · rw [if_pos hk] at h
        injection h with h
        simp [h]
      · rw [if_neg hk] at h
        simp [ih h]

/-- Every model id reachable through `AVAILABLE_MODELS` avoids the
exclusion list. -/
theorem available_ids_not_excluded :
    ∀ pl ∈ AVAILABLE_MODELS, ∀ mc ∈ pl.2, mc.2.id ∉ EXCLUDED_MODEL_LIST := by
  decide

/-- `getModelInfo` can only answer with a configured model or with the
hard-coded default, none of which is excluded. -/
theorem getModelInfo_not_excluded (k reason : String) :
    (getModelInfo k reason).modelId ∉ EXCLUDED_MODEL_LIST := by
  unfold getModelInfo
  cases hmc : (findIn ((k.splitOn ".").headD "") AVAILABLE_MODELS).bind
      (fun m => ((k.splitOn ".")[1]?).bind fun t => findIn t m) with
  | none => simp only [hmc]; decide
  | some c =>
      simp only [hmc]
      rw [Option.bind_eq_some] at hmc
      obtain ⟨m, hm, hmc⟩ := hmc
      rw [Option.bind_eq_some] at hmc
      obtain ⟨t, _, hc⟩ := hmc
      have hmem := findIn_mem hm
      have hcm := findIn_mem hc
      simp only [List.mem_map] at hmem hcm
      obtain ⟨pl, hpl, hple⟩ := hmem
      obtain ⟨mc, hmcl, hmce⟩ := hcm
      have := available_ids_not_excluded pl hpl mc (by rw [hple]; exact hmcl)
      rw [hmce] at this
      exact this

/-- Every branch of the rule chain delegates to `getModelInfo`. -/
theorem selectModelRules_eq_getModelInfo (a : Analysis) (c : UsageCounter) (r : ℚ) :
    ∃ k reason, selectModelRules a c r = getModelInfo k reason := by
  unfold selectModelRules
  split_ifs <;> exact ⟨_, _, rfl⟩

/-- C1: for every classification input — the override case included —
`selectModel` never returns a model id present in the static exclusion
list `EXCLUDED_MODEL_LIST`. -/
theorem selectModel_never_excluded (a : Analysis) (forceModel : Option String)
    (c : UsageCounter) (r : ℚ) :
    (selectModel a forceModel c r).modelId ∉ EXCLUDED_MODEL_LIST := by
  unfold selectModel
  cases forceModel with
  | none =>
      obtain ⟨k, reason, h⟩ := selectModelRules_eq_getModelInfo a c r
      rw [h]
      exact getModelInfo_not_excluded k reason
  | some fm =>
      dsimp only
      by_cases hfm : fm = ""
      · rw [if_pos hfm]
        obtain ⟨k, reason, h⟩ := selectModelRules_eq_getModelInfo a c r
        rw [h]
        exact getModelInfo_not_excluded k reason
      · rw [if_neg hfm]
        exact getModelInfo_not_excluded fm "用戶指定"

/-- C2 counterexample: with counters `gemini = 4, grok = 1, total = 5` the
observed grok ratio is `1/5 < 1/4`, so the spec's gap rule gives selection
probability `1/20`; at the draw `r = 1/10` the code still selects
`grok.mini` (its threshold is the constant `1/4`), while the gap rule as
worded selects `gemini.flash`. -/
theorem selectByRatio_gap_counterexample :
    selectByRatio ⟨4, 1, 5⟩ (1/10) = "grok.mini" ∧
      selectByRatioSpecGap ⟨4, 1, 5⟩ (1/10) = "gemini.flash" := by
  constructor
  · unfold selectByRatio
    norm_num
  · unfold selectByRatioSpecGap
    norm_num

/-- C2 (amended): in the ratio-balancing branch the chance of selecting the
secondary provider is the *constant* 25% — `selectByRatio` returns
`grok.mini` exactly when the observed ratio is below `1/4` and the uniform
draw is below `1/4`, and returns `gemini.flash` otherwise. -/
theorem selectByRatio_characterization (c : UsageCounter) (r : ℚ)
    (h : c.total ≠ 0) :
    selectByRatio c r =
      if (c.grok : ℚ) / (c.total : ℚ) < 1/4 ∧ r < 1/4
      then "grok.mini" else "gemini.flash" := by
  unfold selectByRatio
  rw [if_neg h]
  by_cases h1 : (c.grok : ℚ) / (c.total : ℚ) < 1/4
  · by_cases h2 : r < 1/4
    · rw [if_pos h1, if_pos h2, if_pos ⟨h1, h2⟩]
    · rw [if_pos h1, if_neg h2, if_neg (fun hc => h2 hc.2)]
  · rw [if_neg h1, if_neg (fun hc => h1 hc.1)]

/-- Witness for `selectByRatio_characterization` at the concrete counter
`⟨4, 1, 5⟩` and draw `1/10`. -/
theorem selectByRatio_characterization_witness :
    (⟨4, 1, 5⟩ : UsageCounter).total ≠ 0 ∧
      selectByRatio ⟨4, 1, 5⟩ (1/10) =
        if ((⟨4, 1, 5⟩ : UsageCounter).grok : ℚ) / ((⟨4, 1, 5⟩ : UsageCounter).total : ℚ) < 1/4 ∧ (1/10 : ℚ) < 1/4
        then "grok.mini" else "gemini.flash" :=
  ⟨by decide, selectByRatio_characterization ⟨4, 1, 5⟩ (1/10) (by decide)⟩

/-- `Math.round(n / 2)` on a natural number is `(n + 1) / 2` in natural
division (round-half-up). -/
theorem jsRound_nat_half (n : ℕ) : (jsRound ((n : ℚ) / 2)).toNat = (n + 1) / 2 := by
  unfold jsRound
  have hq : (n : ℚ) / 2 + 1 / 2 = ((n + 1 : ℕ) : ℚ) / ((2 : ℕ) : ℚ) := by
    push_cast
    ring
  rw [hq, Rat.floor_natCast_div_natCast]
  omega

/-- C3: `updateUsageCounter` keeps `total ≤ 100` after every call, and on
the call in which `total` reaches the ceiling 100 it replaces each
per-provider counter by its rounded half (of the just-incremented value)
and sets `total` to 50. -/
theorem updateUsageCounter_bounded_and_halved :
    (∀ (s : UsageCounter) (p : String), (updateUsageCounter p s).total ≤ 100) ∧
    (∀ (s : UsageCounter) (p : String), s.total + 1 ≥ 100 →
      updateUsageCounter p s =
        { gemini := ((if p = "gemini" then s.gemini + 1 else s.gemini) + 1) / 2,
          grok := ((if p = "grok" then s.grok + 1 else s.grok) + 1) / 2,
          total := 50 }) := by
  constructor
  · intro s p
    unfold updateUsageCounter
    dsimp only
    split
    · dsimp only
      omega
    · dsimp only
      omega
  · intro s p h
    unfold updateUsageCounter
    dsimp only
    rw [if_pos (show s.total + 1 ≥ 100 by omega)]
    rw [UsageCounter.mk.injEq]
    refine ⟨?_, ?_, rfl⟩
    · rw [jsRound_nat_half]
    · rw [jsRound_nat_half]

/-- Witness for `updateUsageCounter_bounded_and_halved` at the counter
`⟨60, 39, 99⟩` whose next call reaches the ceiling. -/
theorem updateUsageCounter_bounded_and_halved_witness :
    (updateUsageCounter "gemini" ⟨60, 39, 99⟩).total ≤ 100 ∧
      updateUsageCounter "gemini" ⟨60, 39, 99⟩ = ⟨31, 20, 50⟩ := by
  refine ⟨updateUsageCounter_bounded_and_halved.1 ⟨60, 39, 99⟩ "gemini", ?_⟩
  have h := updateUsageCounter_bounded_and_halved.2 ⟨60, 39, 99⟩ "gemini" (by norm_num)
  rw [h]
  decide

/-- C9 counterexample: a null/absent message does *not* degrade to a
default classification — `analyzeMessage` dereferences
`message.toLowerCase()` first, so the null case throws a `TypeError`
instead of returning a `ClassificationResult`. -/
theorem analyzeMessage_null_throws :
    analyzeMessageJS none = .error "TypeError: message is null or undefined" := rfl

/-- Evaluating the classifier on the empty string. -/
theorem analyzeMessage_empty_eval :
    analyzeMessage "" =
      ⟨"reasoning", 0,
       [("reasoning", 0), ("health", 0), ("emotional", 0), ("humor", 0),
        ("writing", 0), ("fortune", 0), ("lifestyle", 0), ("casual", 0)],
       0, 0, false, false⟩ := by
  with_unfolding_all rfl

/-- C9 (amended): for every *string* input — the empty string included —
classification returns a result rather than raising; the empty string gets
all-zero scores, the first-registered category `reasoning` and complexity
0, and the router then answers with the default cheap model
`gemini-2.5-flash` (reason `日常對話`) for every random draw.  A
null/absent message, by contrast, throws (see
`analyzeMessage_null_throws`). -/
theorem analyzeMessage_total_on_strings :
    (∀ s : String, analyzeMessageJS (some s) = .ok (analyzeMessage s)) ∧
    analyzeMessage "" =
      ⟨"reasoning", 0,
       [("reasoning", 0), ("health", 0), ("emotional", 0), ("humor", 0),
        ("writing", 0), ("fortune", 0), ("lifestyle", 0), ("casual", 0)],
       0, 0, false, false⟩ ∧
    (∀ r : ℚ, selectModel (analyzeMessage "") none initialUsageCounter r =
      ⟨"Gemini 2.5 Flash", "gemini-2.5-flash", "gemini", "日常對話", "⚡"⟩) := by
  refine ⟨fun s => rfl, analyzeMessage_empty_eval, fun r => ?_⟩
  rw [analyzeMessage_empty_eval]
  norm_num [selectModel, selectModelRules, selectByRatio, initialUsageCounter]
  with_unfolding_all rfl

/-! ## Dual-bot coordinator: bounded conversation history
(`dualBotService.js` lines 866–877).  `getHistory` initialises a missing
key to `[]` and `addToHistory` mutates only that key's list, so the
evolution of one key's history is the fold of the per-call operation over
the turns appended to that key. -/

/-- A `ConversationTurn` as pushed by the coordinator. -/
structure ConversationTurn where
  role : String
  content : String
deriving DecidableEq, Repr

/-- `DualBotService.addToHistory` (lines 873–877) acting on one key's
list: `history.push(message)` then a single `shift()` once the length
exceeds 20. -/
def addToHistory (history : List ConversationTurn) (message : ConversationTurn) :
    List ConversationTurn :=
  let h := history ++ [message]
  if h.length > 20 then h.tail else h

/-- On a list whose length respects the cap, one `addToHistory` step is an
append followed by dropping the overflow (0 or 1 element). -/
theorem addToHistory_eq_drop (h : List ConversationTurn) (a : ConversationTurn)
    (hle : h.length ≤ 20) :
    addToHistory h a = (h ++ [a]).drop (h.length + 1 - 20) := by
  unfold addToHistory
  dsimp only
  by_cases hgt : h.length + 1 > 20
  · rw [if_pos (by rw [List.length_append]; simpa using hgt)]
    have h20 : h.length + 1 - 20 = 1 := by omega
    rw [h20, List.drop_one]
  · rw [if_neg (by rw [List.length_append]; simpa using hgt)]
    have h0 : h.length + 1 - 20 = 0 := by omega
    rw [h0, List.drop_zero]

/-- Folding `addToHistory` from the empty history retains exactly the most
recent (at most 20) turns, in arrival order. -/
theorem foldl_addToHistory_eq_drop (ms : List ConversationTurn) :
    ms.foldl addToHistory [] = ms.drop (ms.length - 20) := by
  induction ms using List.reverseRecOn with
  | nil => rfl
  | append_singleton l a ih =>
      have hlen : (l.drop (l.length - 20)).length ≤ 20 := by
        rw [List.length_drop]
        omega
      rw [List.foldl_append, List.foldl_cons, List.foldl_nil, ih,
          addToHistory_eq_drop _ a hlen, List.length_drop,
          ← List.drop_append_of_le_length
            (show l.length - 20 ≤ l.length by omega),
          List.drop_drop, List.length_append]
      congr 1
      simp only [List.length_singleton]
      omega

/-- C4: for every sequence of turns appended to one key, the stored history
never exceeds 20 entries and always equals the suffix of the appended
sequence consisting of its most recent turns (FIFO eviction of the
oldest). -/
theorem history_bounded_fifo (ms : List ConversationTurn) :
    (ms.foldl addToHistory []).length ≤ 20 ∧
      ms.foldl addToHistory [] = ms.drop (ms.length - 20) := by
  refine ⟨?_, foldl_addToHistory_eq_drop ms⟩
  rw [foldl_addToHistory_eq_drop ms, List.length_drop]
  omega

/-! ## Segment cache (`segmentService.js`)

`this.segmentCache` is a JavaScript `Map` whose keys are freshly generated
ids; it is modelled as an association list with unique keys (`mapSet`
removes any stale binding before appending).  Timestamps (`Date.now()`) are
milliseconds as `ℤ`, passed explicitly. -/

/-- A cached segment record `{content, chatId, createdAt}`. -/
structure CachedSegment where
  content : String
  chatId : String
  createdAt : Int
deriving DecidableEq, Repr

/-- `this.cacheExpiry = 30 * 60 * 1000` (30 minutes, ms). -/
def cacheExpiry : Int := 30 * 60 * 1000

/-- The cache map. -/
abbrev SegCache := List (String × CachedSegment)

/-- `map.set(id, value)`: any existing binding for the key is superseded. -/
def mapSet {α : Type} (k : String) (v : α) (m : List (String × α)) :
    List (String × α) :=
  (m.filter fun kv => kv.1 != k) ++ [(k, v)]

/-- `SegmentService.cleanExpiredCache` (lines 253–260): delete every entry
strictly older than the TTL. -/
def cleanExpiredCache (now : Int) (m : SegCache) : SegCache :=
  m.filter fun kv => !(decide (now - kv.2.createdAt > cacheExpiry))

/-- `SegmentService.cacheSegment` (lines 220–233): store the content under
`chatId_now_rand`, then synchronously sweep the whole map.  The random
suffix is the explicit parameter `rand`. -/
def cacheSegment (content chatId : String) (now : Int) (rand : String)
    (m : SegCache) : String × SegCache :=
  let id := chatId ++ "_" ++ toString now ++ "_" ++ rand
  (id, cleanExpiredCache now (mapSet id ⟨content, chatId, now⟩ m))

/-- `SegmentService.getSegment` (lines 238–248): unknown id → `null`;
entry older than the TTL → delete it and return `null`; otherwise return
the cached record. -/
def getSegment (segmentId : String) (now : Int) (m : SegCache) :
    Option CachedSegment × SegCache :=
  match findIn segmentId m with
  | none => (none, m)
  | some cached =>
      if now - cached.createdAt > cacheExpiry then
        (none, m.filter fun kv => kv.1 != segmentId)
      else (some cached, m)

/-- Looking a key up past a prefix that does not bind it. -/
theorem findIn_append_right {α : Type} {k : String} {ys : List (String × α)}
    (xs : List (String × α)) (h : ∀ p ∈ xs, p.1 ≠ k) :
    findIn k (xs ++ ys) = findIn k ys := by
  induction xs with
  | nil => rfl
  | cons a rest ih =>
      obtain ⟨ka, va⟩ := a
      have hka : ka ≠ k := h (ka, va) (by simp)
      simp only [List.cons_append, findIn]
      rw [if_neg (fun he => hka he.symm)]
      exact ih fun p hp => h p (List.mem_cons_of_mem _ hp)

/-- A key never survives a filter that discards it. -/
theorem findIn_filter_ne {α : Type} {k : String} (m : List (String × α)) :
    findIn k (m.filter fun kv => kv.1 != k) = none := by
  induction m with
  | nil => rfl
  | cons a rest ih =>
      simp only [List.filter_cons]
      by_cases hk : (a.1 != k) = true
      · rw [if_pos hk]
        obtain ⟨ka, va⟩ := a
        simp only [findIn]
        rw [if_neg]
        · exact ih
        · intro he
          simp only [bne_iff_ne, ne_eq] at hk
          exact hk he.symm
      · rw [if_neg hk]
        exact ih

/-- A freshly-put segment is found under its returned id. -/
theorem findIn_cacheSegment (content chatId rand : String) (m : SegCache) (t0 : Int) :
    findIn (cacheSegment content chatId t0 rand m).1
        (cacheSegment content chatId t0 rand m).2 = some ⟨content, chatId, t0⟩ := by
  unfold cacheSegment cleanExpiredCache mapSet
  dsimp only
  rw [List.filter_append]
  rw [findIn_append_right]
  · have hfresh : (!decide (t0 - t0 > cacheExpiry)) = true := by
      have hnot : ¬ (t0 - t0 > cacheExpiry) := by
        rw [Int.sub_self]
        simp [cacheExpiry]
      simpa using hnot
    simp only [List.filter_cons]
    dsimp only
    rw [if_pos hfresh, List.filter_nil]
    simp [findIn]
  · intro p hp
    have hp1 : p ∈ m.filter fun kv =>
        kv.1 != (chatId ++ "_" ++ toString t0 ++ "_" ++ rand) :=
      List.mem_of_mem_filter hp
    have hne := List.of_mem_filter hp1
    simpa [bne_iff_ne] using hne

/-- C5: `Get(Put(content, owner))` returns the stored record while the
elapsed time does not exceed the 30-minute TTL; it returns `null` when the
id is unknown or when the elapsed time strictly exceeds the TTL, evicting
the expired entry on that lookup. -/
theorem segment_roundtrip (content chatId rand : String) (m : SegCache) (t0 t1 : Int) :
    (t1 - t0 ≤ cacheExpiry →
      (getSegment (cacheSegment content chatId t0 rand m).1 t1
          (cacheSegment content chatId t0 rand m).2).1 = some ⟨content, chatId, t0⟩) ∧
    (t1 - t0 > cacheExpiry →
      (getSegment (cacheSegment content chatId t0 rand m).1 t1
          (cacheSegment content chatId t0 rand m).2).1 = none ∧
      findIn (cacheSegment content chatId t0 rand m).1
        (getSegment (cacheSegment content chatId t0 rand m).1 t1
          (cacheSegment content chatId t0 rand m).2).2 = none) ∧
    (∀ uid, findIn uid m = none → (getSegment uid t1 m).1 = none) := by
  have hfind := findIn_cacheSegment content chatId rand m t0
  refine ⟨?_, ?_, ?_⟩
  · intro hle
    simp only [getSegment, hfind]
    rw [if_neg (by omega)]
  · intro hgt
    simp only [getSegment, hfind]
    rw [if_pos (by omega)]
    exact ⟨rfl, findIn_filter_ne _⟩
  · intro uid h
    simp [getSegment, h]

/-- Witness for `segment_roundtrip`: a segment stored at time 0 is
retrieved intact at time 0 and gone at time 2 000 000 ms (> 30 min). -/
theorem segment_roundtrip_witness :
    ((0 : ℤ) - 0 ≤ cacheExpiry ∧
      (getSegment (cacheSegment "hi" "c" 0 "r" []).1 0
          (cacheSegment "hi" "c" 0 "r" []).2).1 = some ⟨"hi", "c", 0⟩) ∧
    ((2000000 : ℤ) - 0 > cacheExpiry ∧
      (getSegment (cacheSegment "hi" "c" 0 "r" []).1 2000000
          (cacheSegment "hi" "c" 0 "r" []).2).1 = none) :=
  ⟨⟨by norm_num [cacheExpiry],
    (segment_roundtrip "hi" "c" "r" [] 0 0).1 (by norm_num [cacheExpiry])⟩,
   ⟨by norm_num [cacheExpiry],
    ((segment_roundtrip "hi" "c" "r" [] 0 2000000).2.1 (by norm_num [cacheExpiry])).1⟩⟩

/-- C10: `cacheSegment` sweeps the whole map synchronously — after any
`Put`, every entry still cached is at most TTL old at that instant. -/
theorem cacheSegment_sweeps (content chatId rand : String) (m : SegCache) (t0 : Int) :
    ∀ kv ∈ (cacheSegment content chatId t0 rand m).2,
      t0 - kv.2.createdAt ≤ cacheExpiry := by
  intro kv hkv
  unfold cacheSegment cleanExpiredCache at hkv
  dsimp only at hkv
  have hp := List.of_mem_filter hkv
  simp only [Bool.not_eq_true', decide_eq_false_iff_not] at hp
  omega

/-- Witness for `cacheSegment_sweeps` at a concrete fresh entry. -/
theorem cacheSegment_sweeps_witness :
    ("c_0_r", (⟨"hi", "c", 0⟩ : CachedSegment)) ∈ (cacheSegment "hi" "c" 0 "r" []).2 ∧
      (0 : ℤ) - (⟨"hi", "c", 0⟩ : CachedSegment).createdAt ≤ cacheExpiry := by
  have hmem : ("c_0_r", (⟨"hi", "c", 0⟩ : CachedSegment)) ∈ (cacheSegment "hi" "c" 0 "r" []).2 := by
    with_unfolding_all exact List.Mem.head _
  exact ⟨hmem, cacheSegment_sweeps "hi" "c" "r" [] 0 _ hmem⟩

/-! ## Idle timers (`avatarService.js` lines 997–1018,
`dualBotService.js` lines 298–311)

Both `resetIdleTimer` implementations share one mechanism: look up the
group's stored timer handle in a `Map`, `clearTimeout` it when present,
`setTimeout` a fresh timer, and store the new handle.  `setTimeout` /
`clearTimeout` are modelled by an explicit timer table: `pending` is the
multiset of timer callbacks not yet fired or cancelled (handle, group),
`handleOf` is the service's `Map`, and `nextId` supplies fresh handles.
A `fire` event removes a pending timer (running its callback), and may
interleave arbitrarily with resets. -/

/-- Lookup distributes over append. -/
theorem findIn_append_eq {α : Type} (k : String) (xs ys : List (String × α)) :
    findIn k (xs ++ ys) =
      match findIn k xs with
      | some v => some v
      | none => findIn k ys := by
  induction xs with
  | nil => rfl
  | cons a rest ih =>
      obtain ⟨ka, va⟩ := a
      simp only [List.cons_append, findIn, List.append_eq]
      by_cases hk : k = ka
      · rw [if_pos hk, if_pos hk]
      · rw [if_neg hk, if_neg hk, ih]

/-- Filtering out a *different* key does not change a lookup. -/
theorem findIn_filter_other {α : Type} {k k2 : String} (m : List (String × α))
    (hne : k2 ≠ k) :
    findIn k2 (m.filter fun kv => kv.1 != k) = findIn k2 m := by
  induction m with
  | nil => rfl
  | cons a rest ih =>
      obtain ⟨ka, va⟩ := a
      simp only [List.filter_cons]
      by_cases hka : ((ka, va).1 != k) = true
      · rw [if_pos hka]
        simp only [findIn]
        by_cases hk2 : k2 = ka
        · rw [if_pos hk2, if_pos hk2]
        · rw [if_neg hk2, if_neg hk2, ih]
      · rw [if_neg hka]
        simp only [bne_iff_ne, ne_eq, not_not] at hka
        simp only [findIn]
        rw [if_neg (by rw [hka]; exact hne), ih]

/-- The key just `set` is found with its new value. -/
theorem findIn_mapSet {α : Type} (k : String) (v : α) (m : List (String × α)) :
    findIn k (mapSet k v m) = some v := by
  unfold mapSet
  rw [findIn_append_eq, findIn_filter_ne]
  simp [findIn]

/-- `set` on one key leaves other keys' lookups unchanged. -/
theorem findIn_mapSet_other {α : Type} {k k2 : String} (v : α)
    (m : List (String × α)) (hne : k2 ≠ k) :
    findIn k2 (mapSet k v m) = findIn k2 m := by
  unfold mapSet
  rw [findIn_append_eq, findIn_filter_other m hne]
  cases h : findIn k2 m with
  | some w => rfl
  | none =>
      simp only [findIn]
      rw [if_neg hne]

/-- The cooperative timer table shared by both services. -/
structure TimerState where
  pending : List (Nat × String)
  handleOf : List (String × Nat)
  nextId : Nat

/-- No timers at service construction. -/
def initTimers : TimerState := ⟨[], [], 0⟩

/-- `clearTimeout(h)`: cancel the callback if it is still pending
(a no-op on an already-fired or already-cleared handle). -/
def clearTimeout (h : Nat) (s : TimerState) : TimerState :=
  { s with pending := s.pending.filter fun t => t.1 != h }

/-- `resetIdleTimer(chatId)`: clear the stored handle when the map has
one, install exactly one fresh timer and record its handle. -/
def resetIdleTimer (g : String) (s : TimerState) : TimerState :=
  let s1 :=
    match findIn g s.handleOf with
    | some h => clearTimeout h s
    | none => s
  { pending := (s1.nextId, g) :: s1.pending,
    handleOf := mapSet g s1.nextId s1.handleOf,
    nextId := s1.nextId + 1 }

/-- A pending timer fires: the runtime dequeues its callback. -/
def fireTimer (h : Nat) (s : TimerState) : TimerState :=
  { s with pending := s.pending.filter fun t => t.1 != h }

/-- Interleaved events: message activity (a reset) or a timer firing. -/
inductive TimerEvent where
  | reset (g : String)
  | fire (h : Nat)

/-- One event step. -/
def stepTimer (s : TimerState) : TimerEvent → TimerState
  | .reset g => resetIdleTimer g s
  | .fire h => fireTimer h s

/-- Internal invariant tying the pending multiset to the handle map:
handles are below the allocation counter, pairwise distinct, and every
pending timer's handle is the one currently stored for its group. -/
def TimerInv (s : TimerState) : Prop :=
  (∀ t ∈ s.pending, t.1 < s.nextId) ∧
  (s.pending.map Prod.fst).Nodup ∧
  (∀ t ∈ s.pending, findIn t.2 s.handleOf = some t.1)

/-- After the clear step of a reset, no pending timer belongs to the
group being reset. -/
theorem no_pending_for_group (s : TimerState) (hinv : TimerInv s) (g : String) :
    ∀ t ∈ (match findIn g s.handleOf with
           | some h => clearTimeout h s
           | none => s).pending, t.2 ≠ g := by
  intro t ht he
  cases hf : findIn g s.handleOf with
  | none =>
      rw [hf] at ht
      have hmap := hinv.2.2 t ht
      rw [he, hf] at hmap
      exact Option.noConfusion hmap
  | some h =>
      rw [hf] at ht
      unfold clearTimeout at ht
      dsimp only at ht
      have hmem := List.mem_of_mem_filter ht
      have hpred := List.of_mem_filter ht
      have hmap := hinv.2.2 t hmem
      rw [he, hf] at hmap
      injection hmap with hmap
      simp [hmap] at hpred

/-- The clear step never grows `pending`, touches `handleOf` or `nextId`. -/
theorem clear_step_facts (s : TimerState) (g : String) :
    (∀ t ∈ (match findIn g s.handleOf with
            | some h => clearTimeout h s
            | none => s).pending, t ∈ s.pending) ∧
    ((match findIn g s.handleOf with
      | some h => clearTimeout h s
      | none => s).pending.map Prod.fst).Sublist (s.pending.map Prod.fst) ∧
    (match findIn g s.handleOf with
     | some h => clearTimeout h s
     | none => s).handleOf = s.handleOf ∧
    (match findIn g s.handleOf with
     | some h => clearTimeout h s
     | none => s).nextId = s.nextId := by
  cases hf : findIn g s.handleOf with
  | none => exact ⟨fun t ht => ht, List.Sublist.refl _, rfl, rfl⟩
  | some h =>
      refine ⟨fun t ht => List.mem_of_mem_filter ht, ?_, rfl, rfl⟩
      exact (List.filter_sublist _).map Prod.fst

/-- `stepTimer` preserves the timer-table invariant. -/
theorem timerInv_step (s : TimerState) (e : TimerEvent) (hinv : TimerInv s) :
    TimerInv (stepTimer s e) := by
  cases e with
  | fire h =>
      refine ⟨?_, ?_, ?_⟩
      · intro t ht
        exact hinv.1 t (List.mem_of_mem_filter ht)
      · exact List.Nodup.sublist ((List.filter_sublist _).map Prod.fst) hinv.2.1
      · intro t ht
        exact hinv.2.2 t (List.mem_of_mem_filter ht)
  | reset g =>
      have hclear := clear_step_facts s g
      have hnog := no_pending_for_group s hinv g
      show TimerInv (resetIdleTimer g s)
      unfold resetIdleTimer
      refine ⟨?_, ?_, ?_⟩
      · intro t ht
        dsimp only at ht ⊢
        rcases List.mem_cons.mp ht with hnew | hold
        · rw [hnew]
          omega
        · have := hinv.1 t (hclear.1 t hold)
          rw [hclear.2.2.2]
          omega
      · dsimp only
        rw [List.map_cons]
        refine List.nodup_cons.mpr ⟨?_, ?_⟩
        · intro hmem
          rw [List.mem_map] at hmem
          obtain ⟨t, ht, hid⟩ := hmem
          have := hinv.1 t (hclear.1 t ht)
          rw [hclear.2.2.2] at hid
          omega
        · exact List.Nodup.sublist hclear.2.1 hinv.2.1
      · intro t ht
        dsimp only at ht ⊢
        rcases List.mem_cons.mp ht with hnew | hold
        · rw [hnew]
          dsimp only
          rw [hclear.2.2.1]
          exact findIn_mapSet g _ s.handleOf
        · have hne : t.2 ≠ g := hnog t hold
          rw [hclear.2.2.1]
          rw [findIn_mapSet_other _ s.handleOf hne]
          exact hinv.2.2 t (hclear.1 t hold)

/-- The invariant holds in every reachable timer state. -/
theorem timerInv_fold (evs : List TimerEvent) :
    TimerInv (evs.foldl stepTimer initTimers) := by
  suffices h : ∀ s, TimerInv s → TimerInv (evs.foldl stepTimer s) by
    refine h initTimers ⟨?_, ?_, ?_⟩ <;> simp [initTimers]
  induction evs with
  | nil => exact fun s hs => hs
  | cons e rest ih =>
      intro s hs
      exact ih (stepTimer s e) (timerInv_step s e hs)

/-- Under the invariant, a group never has two pending timers. -/
theorem atMostOne_of_inv (s : TimerState) (hinv : TimerInv s) (g : String) :
    (s.pending.filter fun t => t.2 == g).length ≤ 1 := by
  cases hl : s.pending.filter (fun t => t.2 == g) with
  | nil => simp
  | cons x xs =>
      cases hxs : xs with
      | nil => simp
      | cons y ys =>
          exfalso
          have hx : x ∈ s.pending.filter (fun t => t.2 == g) := by
            rw [hl]
            exact List.mem_cons_self x xs
          have hy : y ∈ s.pending.filter (fun t => t.2 == g) := by
            rw [hl, hxs]
            exact List.mem_cons_of_mem x (List.mem_cons_self y ys)
          have hxg : x.2 = g := by simpa using List.of_mem_filter hx
          have hyg : y.2 = g := by simpa using List.of_mem_filter hy
          have hxm := hinv.2.2 x (List.mem_of_mem_filter hx)
          have hym := hinv.2.2 y (List.mem_of_mem_filter hy)
          rw [hxg] at hxm
          rw [hyg] at hym
          rw [hxm] at hym
          injection hym with hxy
          have hnd : ((s.pending.filter fun t => t.2 == g).map Prod.fst).Nodup :=
            List.Nodup.sublist ((List.filter_sublist _).map Prod.fst) hinv.2.1
          rw [hl, hxs, List.map_cons, List.map_cons] at hnd
          have hnotmem := (List.nodup_cons.mp hnd).1
          exact hnotmem (by rw [hxy]; exact List.mem_cons_self y.1 (ys.map Prod.fst))

/-- Immediately after a reset, the group has exactly one pending timer. -/
theorem exactlyOne_after_reset (s : TimerState) (hinv : TimerInv s) (g : String) :
    ((resetIdleTimer g s).pending.filter fun t => t.2 == g).length = 1 := by
  unfold resetIdleTimer
  dsimp only
  rw [List.filter_cons]
  rw [if_pos (by simp)]
  have hempty : (match findIn g s.handleOf with
      | some h => clearTimeout h s
      | none => s).pending.filter (fun t : Nat × String => t.2 == g) = [] := by
    rw [List.filter_eq_nil_iff]
    intro t ht
    simpa using no_pending_for_group s hinv g t ht
  rw [hempty, List.length_singleton]

/-- C6: for any interleaving of message activity (timer resets) and timer
firings, each group has at most one pending idle-timer callback at every
instant, and a reset leaves the group with exactly one. -/
theorem idle_timer_singleton (evs : List TimerEvent) (g : String) :
    (((evs.foldl stepTimer initTimers).pending.filter fun t => t.2 == g).length ≤ 1) ∧
    ((((evs ++ [TimerEvent.reset g]).foldl stepTimer initTimers).pending.filter
        fun t => t.2 == g).length = 1) := by
  constructor
  · exact atMostOne_of_inv _ (timerInv_fold evs) g
  · rw [List.foldl_append, List.foldl_cons, List.foldl_nil]
    exact exactlyOne_after_reset _ (timerInv_fold evs) g

/-! ## Idle-burst entry guards (`avatarService.js` lines 507–520 and
1023–1034, `dualBotService.js` lines 316–324)

Times are milliseconds; the stored `lastGroupActivity` / `lastIdleChat`
map entries are optional and default to 0 (`|| 0`), exactly as in the
source.  Each guard returns whether the fired timer's callback proceeds
to send burst turns. -/

/-- The entry guard of `AvatarService.triggerIdleChatV2` (lines
1023–1034): require the feature flag, then re-verify real idleness
(`Date.now() - lastActivity` against `minIdleMinutes`).  No other check
precedes the burst loop. -/
def triggerIdleChatV2Fires (enabled : Bool) (lastActivity : Option Int)
    (now minIdleMinutes : Int) : Bool :=
  if !enabled then false
  else if now - lastActivity.getD 0 < minIdleMinutes * 60 * 1000 then false
  else true

/-- The entry guard of the legacy `AvatarService.triggerIdleChat` (lines
507–520): the external idleness oracle (`groupMemoryService.isGroupIdle`)
and a cooldown against `lastIdleChat`. -/
def legacyTriggerIdleChatFires (isIdle : Bool) (lastIdleChat : Option Int)
    (now idleChatIntervalMinutes : Int) : Bool :=
  if !isIdle then false
  else if now - lastIdleChat.getD 0 < idleChatIntervalMinutes * 60 * 1000 then false
  else true

/-- The entry guard of `DualBotService.triggerIdleChat` (lines 316–324):
an avatar bot must exist and the idleness oracle must agree; there is no
cooldown consultation. -/
def dualBotTriggerIdleChatFires (hasAvatarBot isIdle : Bool) : Bool :=
  if !hasAvatarBot then false
  else if !isIdle then false
  else true

/-- Modelled from the spec: §4.3 — when the idle timer fires, burst only
if re-verified idleness holds *and* a separate cooldown (minimum spacing
since the same group's previous burst) passes. -/
def idleBurstSpecGuard (enabled : Bool) (lastActivity lastBurst : Option Int)
    (now minIdleMinutes cooldownMinutes : Int) : Bool :=
  enabled && decide (now - lastActivity.getD 0 ≥ minIdleMinutes * 60 * 1000)
    && decide (now - lastBurst.getD 0 ≥ cooldownMinutes * 60 * 1000)

/-- C7 counterexample: one millisecond after a burst ended
(`lastBurst = 3599999`, `now = 3600000`), with the group idle since
time 0 and a 30-minute threshold, `triggerIdleChatV2` bursts again —
the recorded `lastIdleChat` is never consulted — while the spec's guard
(any positive cooldown, here 30 minutes) forbids it. -/
theorem idle_cooldown_counterexample :
    triggerIdleChatV2Fires true (some 0) 3600000 30 = true ∧
      idleBurstSpecGuard true (some 0) (some 3599999) 3600000 30 30 = false := by
  constructor
  · unfold triggerIdleChatV2Fires
    norm_num
  · unfold idleBurstSpecGuard
    norm_num

/-- C7 (amended): the `triggerIdleChatV2` path re-verifies idleness but
enforces no burst cooldown — it fires exactly when enabled and the
recomputed elapsed time reaches the threshold; only the legacy
`triggerIdleChat` additionally enforces the minimum spacing since the
previous burst, and `DualBotService.triggerIdleChat` checks only the
external idleness oracle. -/
theorem idle_guard_characterization :
    (∀ (e : Bool) (la : Option Int) (now m : Int),
      triggerIdleChatV2Fires e la now m =
        (e && decide (now - la.getD 0 ≥ m * 60 * 1000))) ∧
    (∀ (i : Bool) (lc : Option Int) (now iv : Int),
      legacyTriggerIdleChatFires i lc now iv =
        (i && decide (now - lc.getD 0 ≥ iv * 60 * 1000))) ∧
    (∀ b i : Bool, dualBotTriggerIdleChatFires b i = (b && i)) := by
  refine ⟨fun e la now m => ?_, fun i lc now iv => ?_, fun b i => ?_⟩
  · unfold triggerIdleChatV2Fires
    cases e with
    | false => simp
    | true =>
        rw [if_neg (by simp)]
        by_cases h : now - la.getD 0 < m * 60 * 1000
        · rw [if_pos h]
          have hn : ¬ (now - la.getD 0 ≥ m * 60 * 1000) := by omega
          simp [hn]
        · rw [if_neg h]
          have hy : now - la.getD 0 ≥ m * 60 * 1000 := by omega
          simp [hy]
  · unfold legacyTriggerIdleChatFires
    cases i with
    | false => simp
    | true =>
        rw [if_neg (by simp)]
        by_cases h : now - lc.getD 0 < iv * 60 * 1000
        · rw [if_pos h]
          have hn : ¬ (now - lc.getD 0 ≥ iv * 60 * 1000) := by omega
          simp [hn]
        · rw [if_neg h]
          have hy : now - lc.getD 0 ≥ iv * 60 * 1000 := by omega
          simp [hy]
  · unfold dualBotTriggerIdleChatFires
    cases b <;> cases i <;> simp

/-! ## Reply sends and their failure handling
(`avatarService.js` lines 282–328, `dualBotService.js` lines 265–293)

The transport call `bot.sendMessage(chatId, text, {reply_to_message_id})`
either succeeds or throws an error carrying a message string; the model
passes that outcome in as `firstSend` (`none` = success, `some msg` =
thrown with text `msg`).  What each handler then does with it is read off
the source's `try`/`catch` structure. -/

/-- What one interjection / counter-reply attempt ends up doing. -/
inductive SendOutcome where
  | sentReply
  | sentPlain
  | dropped
  | raised
deriving DecidableEq, Repr

/-- `AvatarService.respondToBongBong` (lines 292–323), inside the delayed
callback: try the reply send; in the catch, if the error message contains
`message to be replied not found`, send the same text as a fresh
non-reply message, otherwise rethrow — which the callback's outer catch
then swallows with a log.  Nothing propagates to the caller. -/
def respondToBongBongSend (firstSend : Option String) : SendOutcome :=
  match firstSend with
  | none => .sentReply
  | some msg =>
      if listContains ("message to be replied not found").data msg.data then
        .sentPlain
      else .dropped

/-- `DualBotService.handleAvatarSpoke` (lines 271–291), inside the delayed
callback: the reply send sits in a try whose catch only logs — a failed
counter-reply is dropped, with no non-reply retry. -/
def handleAvatarSpokeSend (firstSend : Option String) : SendOutcome :=
  match firstSend with
  | none => .sentReply
  | some _ => .dropped

/-- C8 counterexample: when the reply target is gone, the shadow agent's
interjection is resent as a plain message, but the primary agent's
counter-reply is merely logged and dropped — it is not resent, contrary
to the claim that every reply send falls back to a non-reply send. -/
theorem counter_reply_no_fallback :
    handleAvatarSpokeSend (some "Bad Request: message to be replied not found") =
        .dropped ∧
      SendOutcome.dropped ≠ SendOutcome.sentPlain ∧
      respondToBongBongSend (some "Bad Request: message to be replied not found") =
        .sentPlain := by
  refine ⟨rfl, by decide, ?_⟩
  with_unfolding_all rfl

/-- C8 (amended): neither send path ever raises to its caller; the
shadow-agent interjection (`respondToBongBong`) falls back to a plain
non-reply send exactly when the error message contains
`message to be replied not found` (and drops other failures), while the
primary-agent counter-reply (`handleAvatarSpoke`) drops every failed
send without retrying. -/
theorem send_fallback_characterization :
    (∀ r, respondToBongBongSend r ≠ .raised) ∧
    (∀ r, handleAvatarSpokeSend r ≠ .raised) ∧
    (∀ msg, respondToBongBongSend (some msg) =
      (if listContains ("message to be replied not found").data msg.data then
        .sentPlain else .dropped)) ∧
    (∀ msg, handleAvatarSpokeSend (some msg) = .dropped) := by
  refine ⟨fun r => ?_, fun r => ?_, fun msg => rfl, fun msg => rfl⟩
  · cases r with
    | none => simp [respondToBongBongSend]
    | some msg =>
        simp only [respondToBongBongSend]
        split_ifs <;> simp
  · cases r with
    | none => simp [handleAvatarSpokeSend]
    | some msg => simp [handleAvatarSpokeSend]

end SmsBot
